import Mathlib

/-!
Verification development for `framework-evalanche/data.py`: the data-selection
and pipeline-invocation page.  The shallow embedding below models the core
pipeline runner (`pipeline_runner`, data.py lines 190-233), the input
validator (`validate_data_inputs`, lines 96-110) and the preview dialog
(`preview_merge_data`, lines 113-137).

Tables are modelled as lists of rows; a row's user columns are abstracted to a
payload of type `α` (the column set is chosen at run time, so rows are generic
values).  Machinery that lives outside this file's source tree
(`add_row_id`, `save_eval_to_table` from `src/snowflake_utils`) is modelled
from the spec, as marked in the respective doc comments.  Remote stored
procedure calls and the `join_data` helper are parameters of the model
(functions returning `Except`), since their behaviour is external.
-/

set_option autoImplicit false

namespace Evalanche

/-- A source row after the Row Tagger: the `ROW_ID` column added by
`add_row_id` plus the original columns (`payload`). -/
structure TaggedRow (α : Type) where
  row_id : Nat
  payload : α
deriving Repr, DecidableEq

/-- One invocation result as built by the lambda in `pipeline_runner`
(data.py lines 222-227): the captured `ROW_ID` and the scalar `RESPONSE`
returned by the stored procedure call. -/
structure InvocationResult (β : Type) where
  row_id : Nat
  response : β
deriving Repr, DecidableEq

/-- One row of the joined output (data.py line 232): the join key `ROW_ID`,
the `RESPONSE` from the results side, and the source columns, which are
`none` (SQL NULL) when the left join found no matching source row. -/
structure OutputRecord (α β : Type) where
  row_id : Nat
  response : β
  payload : Option α
deriving Repr, DecidableEq

/-- Helper for tagging rows with consecutive identifiers starting at `i`. -/
def tagFrom {α : Type} (i : Nat) : List α → List (TaggedRow α)
  | [] => []
  | a :: rest => ⟨i, a⟩ :: tagFrom (i + 1) rest

/-- Modelled from the spec: `add_row_id` lives in `src/snowflake_utils`,
which is not part of the given sources.  Per the spec's Row Tagger contract
it returns an equivalent table with one additional column holding a unique
identifier per row, altering neither row count nor existing column values;
we realise the unique identifiers as consecutive naturals. -/
def add_row_id {α : Type} (rows : List α) : List (TaggedRow α) :=
  tagFrom 0 rows

/-- The per-batch parallel invocation (data.py lines 220-230): for every row
of the batch, one stored-procedure call producing `{ROW_ID, RESPONSE}`.
A stored procedure is modelled as `sproc : TaggedRow α → Except ε β` (one
remote call, either a scalar value or an exception).  `joblib.Parallel`
re-raises the first exception of the generator and discards collected
results, so the whole batch yields either every result or a single error. -/
def invokeBatch {α β ε : Type} (sproc : TaggedRow α → Except ε β) :
    List (TaggedRow α) → Except ε (List (InvocationResult β))
  | [] => .ok []
  | r :: rest =>
    match sproc r with
    | .error e => .error e
    | .ok v =>
      match invokeBatch sproc rest with
      | .error e => .error e
      | .ok rs => .ok (⟨r.row_id, v⟩ :: rs)

/-- The join of data.py line 232:
`session.create_dataframe(results).join(df, on="ROW_ID", how="left")`.
The RESULTS dataframe is the LEFT side and the tagged source `df` the RIGHT
side, so every result row appears (with `none` source columns when no source
row matches), while source rows without a matching result are dropped. -/
def leftJoinResults {α β : Type} (results : List (InvocationResult β))
    (df : List (TaggedRow α)) : List (OutputRecord α β) :=
  results.flatMap fun r =>
    match df.filter (fun t => t.row_id == r.row_id) with
    | [] => [⟨r.row_id, r.response, none⟩]
    | ms => ms.map fun t => ⟨r.row_id, r.response, some t.payload⟩

/-- Modelled from the spec: `save_eval_to_table` lives in
`src/snowflake_utils`, which is not part of the given sources.  Per the
spec's output-table contract and the `pipeline_runner` docstring ("Write
mode is set to append so that multiple evaluations can be saved to the same
table"), it appends the joined rows to the existing output table, never
creating, truncating, overwriting or dropping it. -/
def save_eval_to_table {γ : Type} (rows : List γ) (table : List γ) : List γ :=
  table ++ rows

/-- Errors observable from a `pipeline_runner` run. -/
inductive RunError (ε : Type) where
  /-- An exception raised inside a stored-procedure invocation, propagated
  uncaught out of the batch loop. -/
  | invocation : ε → RunError ε
  /-- The Python `NameError` raised at data.py line 232 when the loop body
  never ran, leaving the local `results` unbound. -/
  | unbound : RunError ε
deriving Repr, DecidableEq

/-- The batch loop of data.py lines 219-230.  The loop variable `results` is
reassigned on every iteration, so after the loop it holds only the LAST
batch's results; `none` models the Python state "never assigned". -/
def runLoop {α β ε : Type} (sproc : TaggedRow α → Except ε β) :
    List (List (TaggedRow α)) → Option (List (InvocationResult β)) →
    Except ε (Option (List (InvocationResult β)))
  | [], acc => .ok acc
  | b :: bs, _ =>
    match invokeBatch sproc b with
    | .error e => .error e
    | .ok rs => runLoop sproc bs (some rs)

/-- `pipeline_runner` (data.py lines 190-233).  The input table is tagged by
`add_row_id`, streamed in batches (`toBatches` stands for
`df.to_pandas_batches()`, whose batch sizes the code does not control), each
batch is run through the parallel invoker, and after the loop the surviving
`results` value is joined to the tagged source and appended to the output
table.  When the loop produced no iteration, line 232 reads the unbound
local `results` and raises `NameError`, modelled as `RunError.unbound`.
Returns the new contents of the output table. -/
def pipeline_runner {α β ε : Type} (sproc : TaggedRow α → Except ε β)
    (toBatches : List (TaggedRow α) → List (List (TaggedRow α)))
    (table : List α) (output : List (OutputRecord α β)) :
    Except (RunError ε) (List (OutputRecord α β)) :=
  let df := add_row_id table
  match runLoop sproc (toBatches df) none with
  | .error e => .error (.invocation e)
  | .ok none => .error .unbound
  | .ok (some results) =>
    .ok (save_eval_to_table (leftJoinResults results df) output)

/-- A concrete batching strategy used for witnesses: every row in its own
batch.  `to_pandas_batches` yields zero batches for an empty table, as this
does. -/
def rowBatches {α : Type} (l : List α) : List (List α) :=
  l.map fun a => [a]

/-- The slice of `st.session_state` read by `validate_data_inputs`
(data.py lines 96-110): the two selected data sources and the two join
columns, each possibly absent (`st.session_state.get(..., None) is None`). -/
structure SessionState (δ : Type) where
  inference_data : Option δ
  ground_data : Option δ
  inference_join_column : Option String
  ground_join_column : Option String

/-- `validate_data_inputs` (data.py lines 96-110): checks the four required
inputs in order; on the first missing one it shows an error message and
calls `st.stop()`, halting the script — modelled as `Except.error` carrying
the displayed message. -/
def validate_data_inputs {δ : Type} (s : SessionState δ) : Except String Unit :=
  if s.inference_data.isNone then .error "No inference data selected." else
  if s.ground_data.isNone then .error "No ground truth data selected." else
  if s.inference_join_column.isNone then .error "No inference join column selected." else
  if s.ground_join_column.isNone then .error "No ground truth join column selected." else
  .ok ()

/-- Observable outcome of the `preview_merge_data` dialog. -/
inductive PreviewOutcome (δ : Type) where
  /-- `validate_data_inputs` showed an error and `st.stop()` halted the
  script before any data processing. -/
  | stopped : String → PreviewOutcome δ
  /-- The joined/limited data was displayed by `st.dataframe`. -/
  | displayed : δ → PreviewOutcome δ
  /-- An `st.error` message was shown by the except branch, after which
  line 135 (`if data is not None`) read the never-assigned local `data`
  and raised `NameError`. -/
  | localUnbound : String → PreviewOutcome δ
deriving Repr, DecidableEq

/-- `preview_merge_data` (data.py lines 113-137).  With no single source,
the inputs are validated and `join_data` is tried; otherwise
`single_source_data.limit(50)` is tried.  In either `try`, an exception is
caught and an error message shown, but then the local `data` was never
assigned, so the final `if data is not None:` raises `NameError`
(successful `join_data`/`limit` calls return a dataframe, never `None`, so
when `data` is bound the dataframe is displayed). -/
def preview_merge_data {δ : Type} (single_source_data : Option δ)
    (s : SessionState δ) (join_data : Unit → Except String δ)
    (limitFn : δ → Except String δ) : PreviewOutcome δ :=
  match single_source_data with
  | none =>
    match validate_data_inputs s with
    | .error m => .stopped m
    | .ok _ =>
      match join_data () with
      | .error e => .localUnbound ("Error: " ++ e)
      | .ok d => .displayed d
  | some src =>
    match limitFn src with
    | .error e => .localUnbound ("Error: " ++ e)
    | .ok d => .displayed d

/-! ### Helper lemmas -/

theorem length_tagFrom {α : Type} (i : Nat) (rows : List α) :
    (tagFrom i rows).length = rows.length := by
  induction rows generalizing i with
  | nil => rfl
  | cons a rest ih => simp [tagFrom, ih]

theorem map_payload_tagFrom {α : Type} (i : Nat) (rows : List α) :
    (tagFrom i rows).map TaggedRow.payload = rows := by
  induction rows generalizing i with
  | nil => rfl
  | cons a rest ih => simp [tagFrom, ih]

theorem le_of_mem_row_id_tagFrom {α : Type} {i n : Nat} {rows : List α}
    (h : n ∈ (tagFrom i rows).map TaggedRow.row_id) : i ≤ n := by
  induction rows generalizing i with
  | nil => simp [tagFrom] at h
  | cons a rest ih =>
    simp only [tagFrom, List.map_cons, List.mem_cons] at h
    rcases h with h | h
    · omega
    · have := ih h
      omega

theorem nodup_row_id_tagFrom {α : Type} (i : Nat) (rows : List α) :
    ((tagFrom i rows).map TaggedRow.row_id).Nodup := by
  induction rows generalizing i with
  | nil => simp [tagFrom]
  | cons a rest ih =>
    simp only [tagFrom, List.map_cons, List.nodup_cons]
    refine ⟨fun hmem => ?_, ih (i + 1)⟩
    have := le_of_mem_row_id_tagFrom hmem
    omega

theorem invokeBatch_error_of_mem {α β ε : Type}
    (sproc : TaggedRow α → Except ε β) {b : List (TaggedRow α)}
    {r : TaggedRow α} {e : ε} (hr : r ∈ b) (he : sproc r = .error e) :
    ∃ e1, invokeBatch sproc b = .error e1 := by
  induction b with
  | nil => cases hr
  | cons r0 rest ih =>
    rcases List.mem_cons.mp hr with h | h
    · subst h
      exact ⟨e, by simp [invokeBatch, he]⟩
    · obtain ⟨e1, he1⟩ := ih h
      cases hs : sproc r0 with
      | error e0 => exact ⟨e0, by simp [invokeBatch, hs]⟩
      | ok v => exact ⟨e1, by simp [invokeBatch, hs, he1]⟩

theorem runLoop_error_of_mem {α β ε : Type}
    (sproc : TaggedRow α → Except ε β) {bs : List (List (TaggedRow α))}
    {b : List (TaggedRow α)} (hb : b ∈ bs)
    (hfail : ∃ e1, invokeBatch sproc b = .error e1)
    (acc : Option (List (InvocationResult β))) :
    ∃ e2, runLoop sproc bs acc = .error e2 := by
  induction bs generalizing acc with
  | nil => cases hb
  | cons b0 rest ih =>
    cases h0 : invokeBatch sproc b0 with
    | error e0 => exact ⟨e0, by simp [runLoop, h0]⟩
    | ok rs =>
      rcases List.mem_cons.mp hb with h | h
      · subst h
        obtain ⟨e1, he1⟩ := hfail
        rw [h0] at he1
        cases he1
      · obtain ⟨e2, he2⟩ := ih h (some rs)
        exact ⟨e2, by simp [runLoop, h0, he2]⟩

/-! ### Claim theorems -/

/-- Claim C4: for every batch in which all invocations succeed, the parallel
invoker returns exactly one invocation result per input record, and the list
of Row Identifiers carried by the results is exactly the list of `ROW_ID`s
of the batch's records, in order — a bijection between results and
records. -/
theorem invokeBatch_one_result_per_record {α β ε : Type}
    (sproc : TaggedRow α → Except ε β) (batch : List (TaggedRow α))
    (rs : List (InvocationResult β)) (h : invokeBatch sproc batch = .ok rs) :
    rs.length = batch.length
    ∧ rs.map InvocationResult.row_id = batch.map TaggedRow.row_id := by
  induction batch generalizing rs with
  | nil =>
    simp only [invokeBatch] at h
    cases h
    exact ⟨rfl, rfl⟩
  | cons r rest ih =>
    simp only [invokeBatch] at h
    cases hs : sproc r with
    | error e => rw [hs] at h; cases h
    | ok v =>
      rw [hs] at h
      cases hrest : invokeBatch sproc rest with
      | error e => rw [hrest] at h; cases h
      | ok rs0 =>
        rw [hrest] at h
        cases h
        obtain ⟨h1, h2⟩ := ih rs0 hrest
        exact ⟨by simp [h1], by simp [h2]⟩

/-- Claim C4 witness: a concrete two-row batch with an always-succeeding
stored procedure. -/
theorem invokeBatch_one_result_per_record_witness :
    (([⟨0, 10⟩, ⟨1, 20⟩] : List (InvocationResult Nat)).length
      = ([⟨0, 10⟩, ⟨1, 20⟩] : List (TaggedRow Nat)).length)
    ∧ ([⟨0, 10⟩, ⟨1, 20⟩] : List (InvocationResult Nat)).map InvocationResult.row_id
      = ([⟨0, 10⟩, ⟨1, 20⟩] : List (TaggedRow Nat)).map TaggedRow.row_id :=
  invokeBatch_one_result_per_record
    (fun r => (Except.ok r.payload : Except String Nat))
    [⟨0, 10⟩, ⟨1, 20⟩] [⟨0, 10⟩, ⟨1, 20⟩] rfl

/-- Claim C5: if any single invocation in some batch raises an exception,
that batch's whole result collection aborts with that error (no partial
results exist — the batch yields either all results or only an error), and
`pipeline_runner` propagates an invocation error to the caller: no retry
exists anywhere in the definition, and no output is written. -/
theorem invocation_error_aborts_run {α β ε : Type}
    (sproc : TaggedRow α → Except ε β)
    (toBatches : List (TaggedRow α) → List (List (TaggedRow α)))
    (table : List α) (output : List (OutputRecord α β))
    (b : List (TaggedRow α)) (r : TaggedRow α) (e : ε)
    (hb : b ∈ toBatches (add_row_id table)) (hr : r ∈ b)
    (he : sproc r = .error e) :
    (∃ e1, invokeBatch sproc b = .error e1)
    ∧ (∃ e2, pipeline_runner sproc toBatches table output
        = .error (.invocation e2)) := by
  have hfail := invokeBatch_error_of_mem sproc hr he
  refine ⟨hfail, ?_⟩
  obtain ⟨e2, he2⟩ := runLoop_error_of_mem sproc hb hfail none
  exact ⟨e2, by simp [pipeline_runner, he2]⟩

/-- Claim C5 witness: a two-row table in single-row batches where the second
row's invocation raises. -/
theorem invocation_error_aborts_run_witness :
    (∃ e1, invokeBatch
      ((fun r => if r.row_id == 1 then Except.error "boom" else Except.ok r.payload) :
        TaggedRow Nat → Except String Nat) [⟨1, 6⟩] = .error e1)
    ∧ (∃ e2, pipeline_runner
      ((fun r => if r.row_id == 1 then Except.error "boom" else Except.ok r.payload) :
        TaggedRow Nat → Except String Nat) rowBatches [5, 6] []
        = .error (.invocation e2)) :=
  invocation_error_aborts_run _ rowBatches [5, 6] [] [⟨1, 6⟩] ⟨1, 6⟩ "boom"
    (by decide) (by decide) rfl

/-- Claim C8: for every input table with N >= 0 rows, `add_row_id` returns a
table with exactly N rows, an identifier column whose values are pairwise
distinct, and all existing column values (the payloads, in order) and the
row count unchanged. -/
theorem add_row_id_contract {α : Type} (rows : List α) :
    (add_row_id rows).length = rows.length
    ∧ ((add_row_id rows).map TaggedRow.row_id).Nodup
    ∧ (add_row_id rows).map TaggedRow.payload = rows :=
  ⟨length_tagFrom 0 rows, nodup_row_id_tagFrom 0 rows, map_payload_tagFrom 0 rows⟩

theorem runLoop_last {α β ε : Type} (sproc : TaggedRow α → Except ε β)
    (bs : List (List (TaggedRow α))) (blast : List (TaggedRow α))
    (rs : List (InvocationResult β))
    (hok : ∀ b ∈ bs, ∃ r0, invokeBatch sproc b = .ok r0)
    (hlast : invokeBatch sproc blast = .ok rs)
    (acc : Option (List (InvocationResult β))) :
    runLoop sproc (bs ++ [blast]) acc = .ok (some rs) := by
  induction bs generalizing acc with
  | nil => simp [runLoop, hlast]
  | cons b0 rest ih =>
    obtain ⟨r0, hr0⟩ := hok b0 (List.mem_cons_self b0 rest)
    simp only [List.cons_append, runLoop, hr0]
    exact ih (fun b hb => hok b (List.mem_cons_of_mem b0 hb)) (some r0)

/-- Claim C1: the loop variable `results` is reassigned on every batch
iteration, so when the input table produces more than one batch and every
invocation succeeds, the run's output append consists of the left join of
ONLY the last batch's invocation results with the tagged source — the
earlier batches' results are discarded. -/
theorem pipeline_runner_last_batch_only {α β ε : Type}
    (sproc : TaggedRow α → Except ε β)
    (toBatches : List (TaggedRow α) → List (List (TaggedRow α)))
    (table : List α) (output : List (OutputRecord α β))
    (bs : List (List (TaggedRow α))) (blast : List (TaggedRow α))
    (rs : List (InvocationResult β))
    (_hpart : (toBatches (add_row_id table)).flatten = add_row_id table)
    (hsplit : toBatches (add_row_id table) = bs ++ [blast])
    (_hmulti : bs ≠ [])
    (hok : ∀ b ∈ bs, ∃ r0, invokeBatch sproc b = .ok r0)
    (hlast : invokeBatch sproc blast = .ok rs) :
    pipeline_runner sproc toBatches table output
      = .ok (save_eval_to_table (leftJoinResults rs (add_row_id table)) output) := by
  have h := runLoop_last sproc bs blast rs hok hlast none
  simp only [pipeline_runner, hsplit, h]

/-- Claim C1 witness: a two-row table split into two single-row batches with
an always-succeeding procedure; only the second (last) row's result is
joined and appended. -/
theorem pipeline_runner_last_batch_only_witness :
    pipeline_runner (fun r => (Except.ok r.payload : Except String Nat))
      rowBatches [10, 20] []
      = .ok (save_eval_to_table
          (leftJoinResults ([⟨1, 20⟩] : List (InvocationResult Nat))
            (add_row_id [10, 20])) []) :=
  pipeline_runner_last_batch_only
    (fun r => (Except.ok r.payload : Except String Nat)) rowBatches [10, 20] []
    [[⟨0, 10⟩]] [⟨1, 20⟩] [⟨1, 20⟩] rfl rfl (by decide)
    (by
      intro b hb
      have hb1 : b = [⟨0, 10⟩] := by
        simpa using hb
      subst hb1
      exact ⟨[⟨0, 10⟩], rfl⟩)
    rfl

/-- Claim C2 (evaluation at the failing input): on an empty source table the
batch loop runs zero iterations, so the local `results` is never assigned
and line 232 raises `NameError` — the run does NOT complete without error,
although no rows are appended. -/
theorem pipeline_runner_empty_table :
    pipeline_runner (fun r => (Except.ok r.payload : Except String Nat))
      rowBatches ([] : List Nat) [] = .error .unbound := rfl

/-- Claim C6 (evaluation at the failing input): two single-row batches, the
second of which raises.  The first batch is fully processed (all its
invocations succeed), yet the run ends in an invocation error: nothing at
all was appended for this run, because the single join-and-append of lines
232-233 sits after the loop and is never reached — contrary to the claim
that the earlier batch's rows were already persisted. -/
theorem pipeline_runner_later_batch_failure :
    (invokeBatch
      ((fun r => if r.row_id == 1 then Except.error "boom" else Except.ok r.payload) :
        TaggedRow Nat → Except String Nat) [⟨0, 5⟩] = .ok [⟨0, 5⟩])
    ∧ (pipeline_runner
      ((fun r => if r.row_id == 1 then Except.error "boom" else Except.ok r.payload) :
        TaggedRow Nat → Except String Nat) rowBatches [5, 6] [⟨7, 7, some 7⟩]
      = .error (.invocation "boom")) :=
  ⟨rfl, rfl⟩

/-- Claim C7: two successful runs over the same source and output table are
not idempotent — the run's joined rows are appended once per run, so after
the second run each joined record occurs at least twice; and the output
table is only ever extended (both results have the original table as a
prefix), never created, overwritten, truncated or dropped. -/
theorem pipeline_runner_twice_duplicates {α β ε : Type}
    [DecidableEq α] [DecidableEq β]
    (sproc : TaggedRow α → Except ε β)
    (toBatches : List (TaggedRow α) → List (List (TaggedRow α)))
    (table : List α) (output0 out1 out2 : List (OutputRecord α β))
    (h1 : pipeline_runner sproc toBatches table output0 = .ok out1)
    (h2 : pipeline_runner sproc toBatches table out1 = .ok out2) :
    ∃ newRows, out1 = output0 ++ newRows
      ∧ out2 = output0 ++ newRows ++ newRows
      ∧ ∀ rec ∈ newRows, 2 ≤ out2.count rec := by
  simp only [pipeline_runner] at h1 h2
  cases hrl : runLoop sproc (toBatches (add_row_id table)) none with
  | error e => rw [hrl] at h1; cases h1
  | ok o =>
    cases o with
    | none => rw [hrl] at h1; cases h1
    | some rs =>
      rw [hrl] at h1 h2
      cases h1
      cases h2
      refine ⟨leftJoinResults rs (add_row_id table), rfl, ?_, ?_⟩
      · simp [save_eval_to_table, List.append_assoc]
      · intro rec hrec
        have hpos : 1 ≤ (leftJoinResults rs (add_row_id table)).count rec :=
          List.count_pos_iff.mpr hrec
        simp only [save_eval_to_table, List.count_append]
        omega

/-- Claim C7 witness: a one-row table run twice over an initially empty
output table; the joined record appears twice after the second run. -/
theorem pipeline_runner_twice_duplicates_witness :
    ∃ newRows,
      ([⟨0, 6, some 3⟩] : List (OutputRecord Nat Nat)) = [] ++ newRows
      ∧ ([⟨0, 6, some 3⟩, ⟨0, 6, some 3⟩] : List (OutputRecord Nat Nat))
          = [] ++ newRows ++ newRows
      ∧ ∀ rec ∈ newRows,
          2 ≤ ([⟨0, 6, some 3⟩, ⟨0, 6, some 3⟩] :
            List (OutputRecord Nat Nat)).count rec :=
  pipeline_runner_twice_duplicates
    (fun r => (Except.ok (r.payload * 2) : Except String Nat)) rowBatches
    [3] [] [⟨0, 6, some 3⟩] [⟨0, 6, some 3⟩, ⟨0, 6, some 3⟩] rfl rfl

theorem row_id_of_mem_leftJoinResults {α β : Type}
    {rs : List (InvocationResult β)} {df : List (TaggedRow α)}
    {o : OutputRecord α β} (ho : o ∈ leftJoinResults rs df) :
    ∃ r ∈ rs, o.row_id = r.row_id := by
  obtain ⟨r, hr, hmem⟩ := List.mem_flatMap.mp ho
  refine ⟨r, hr, ?_⟩
  cases hf : df.filter (fun t => t.row_id == r.row_id) with
  | nil =>
    rw [hf] at hmem
    simp only [List.mem_singleton] at hmem
    rw [hmem]
  | cons t ts =>
    rw [hf] at hmem
    obtain ⟨t0, _, ht0⟩ := List.mem_map.mp hmem
    rw [← ht0]

/-- Claim C3 counterexample: source table of two tagged rows (`ROW_ID` 0 and
1) and a results set holding a single result for `ROW_ID` 1.  Every Row
Identifier in the results has exactly one match in the source, yet the
joined output has 1 row, not the source's 2, and source row 0 appears
nowhere in the output — in particular not with a null result value.  The
join of data.py line 232 has the RESULTS as its left side, so unmatched
SOURCE rows are dropped, refuting the claim's left-join direction. -/
theorem result_joiner_drops_unmatched_source :
    ((([⟨0, 10⟩, ⟨1, 20⟩] : List (TaggedRow Nat)).filter
        (fun t => t.row_id == 1)).length = 1)
    ∧ ((leftJoinResults ([⟨1, 99⟩] : List (InvocationResult Nat))
        ([⟨0, 10⟩, ⟨1, 20⟩] : List (TaggedRow Nat))).length ≠ 2)
    ∧ ((leftJoinResults ([⟨1, 99⟩] : List (InvocationResult Nat))
        ([⟨0, 10⟩, ⟨1, 20⟩] : List (TaggedRow Nat))).filter
        (fun o => o.row_id == 0) = []) := by
  decide

/-- Claim C3 amended: the Result Joiner left-joins with the invocation
results as the LEFT side and the tagged source as the RIGHT side, keyed on
Row Identifier.  When every Row Identifier in the results has exactly one
match in the source, the output row count equals the RESULTS row count; a
source row whose identifier matches no result is dropped from the output;
and a result whose identifier matches no source row appears in the output
with null source values. -/
theorem result_joiner_left_side_results {α β : Type}
    (rs : List (InvocationResult β)) (df : List (TaggedRow α)) :
    ((∀ r ∈ rs, (df.filter fun t => t.row_id == r.row_id).length = 1) →
      (leftJoinResults rs df).length = rs.length)
    ∧ (∀ t ∈ df, rs.filter (fun r => r.row_id == t.row_id) = [] →
        (leftJoinResults rs df).filter (fun o => o.row_id == t.row_id) = [])
    ∧ (∀ r ∈ rs, df.filter (fun t => t.row_id == r.row_id) = [] →
        (⟨r.row_id, r.response, none⟩ : OutputRecord α β) ∈ leftJoinResults rs df) := by
  refine ⟨?_, ?_, ?_⟩
  · intro h
    induction rs with
    | nil => rfl
    | cons r rest ih =>
      have hr := h r (List.mem_cons_self r rest)
      simp only [leftJoinResults, List.flatMap_cons, List.length_append]
      cases hf : df.filter (fun t => t.row_id == r.row_id) with
      | nil => rw [hf] at hr; cases hr
      | cons t ts =>
        rw [hf] at hr
        simp only [List.length_cons, List.length_map]
        have hrest := ih (fun r0 hr0 => h r0 (List.mem_cons_of_mem r hr0))
        simp only [leftJoinResults] at hrest
        rw [hrest]
        simp only [List.length_cons] at hr
        omega
  · intro t _ hnone
    rw [List.filter_eq_nil_iff]
    intro o ho
    obtain ⟨r, hr, hid⟩ := row_id_of_mem_leftJoinResults ho
    have := List.filter_eq_nil_iff.mp hnone r hr
    simp only [beq_iff_eq] at this ⊢
    rw [hid]
    exact this
  · intro r hr hnone
    refine List.mem_flatMap.mpr ⟨r, hr, ?_⟩
    rw [hnone]
    exact List.mem_singleton.mpr rfl

/-- Claim C3 amended witness: the count part on a fully matched instance,
the dropped-source part and the null-source part on an instance whose
result and source identifiers are disjoint. -/
theorem result_joiner_left_side_results_witness :
    ((leftJoinResults ([⟨0, 1⟩] : List (InvocationResult Nat))
        ([⟨0, 2⟩] : List (TaggedRow Nat))).length
      = ([⟨0, 1⟩] : List (InvocationResult Nat)).length)
    ∧ ((leftJoinResults ([⟨9, 9⟩] : List (InvocationResult Nat))
        ([⟨5, 4⟩] : List (TaggedRow Nat))).filter
        (fun o => o.row_id == 5) = [])
    ∧ ((⟨9, 9, none⟩ : OutputRecord Nat Nat) ∈
        leftJoinResults ([⟨9, 9⟩] : List (InvocationResult Nat))
        ([⟨5, 4⟩] : List (TaggedRow Nat))) :=
  ⟨(result_joiner_left_side_results [⟨0, 1⟩] [⟨0, 2⟩]).1 (by decide),
   (result_joiner_left_side_results [⟨9, 9⟩] [⟨5, 4⟩]).2.1 ⟨5, 4⟩
     (by decide) (by decide),
   (result_joiner_left_side_results [⟨9, 9⟩] [⟨5, 4⟩]).2.2 ⟨9, 9⟩
     (by decide) (by decide)⟩

theorem preview_stopped_of_validate_error {δ : Type} (s : SessionState δ)
    (m : String) (hv : validate_data_inputs s = .error m)
    (join_data : Unit → Except String δ) (limitFn : δ → Except String δ) :
    preview_merge_data none s join_data limitFn = .stopped m := by
  simp [preview_merge_data, hv]

/-- Claim C9: whenever any of the four required inputs (inference data,
ground-truth data, inference join column, ground-truth join column) is
missing from session state, `validate_data_inputs` surfaces an error
message to the caller and stops the script, so a caller such as
`preview_merge_data` (in the separate-sources case) ends in the stopped
state without invoking any data processing, whatever `join_data` would
do. -/
theorem validate_data_inputs_stops {δ : Type} (s : SessionState δ)
    (h : s.inference_data = none ∨ s.ground_data = none ∨
      s.inference_join_column = none ∨ s.ground_join_column = none) :
    ∃ m, validate_data_inputs s = .error m ∧
      ∀ (join_data : Unit → Except String δ) (limitFn : δ → Except String δ),
        preview_merge_data none s join_data limitFn = .stopped m := by
  have hv : ∃ m, validate_data_inputs s = .error m := by
    cases hi : s.inference_data with
    | none =>
      exact ⟨"No inference data selected.", by simp [validate_data_inputs, hi]⟩
    | some a =>
      cases hg : s.ground_data with
      | none =>
        exact ⟨"No ground truth data selected.",
          by simp [validate_data_inputs, hi, hg]⟩
      | some b =>
        cases hij : s.inference_join_column with
        | none =>
          exact ⟨"No inference join column selected.",
            by simp [validate_data_inputs, hi, hg, hij]⟩
        | some c =>
          cases hgj : s.ground_join_column with
          | none =>
            exact ⟨"No ground truth join column selected.",
              by simp [validate_data_inputs, hi, hg, hij, hgj]⟩
          | some d =>
            rcases h with h | h | h | h <;> simp [hi, hg, hij, hgj] at h
  obtain ⟨m, hm⟩ := hv
  exact ⟨m, hm, fun j l => preview_stopped_of_validate_error s m hm j l⟩

/-- Claim C9 witness: a session state missing the inference data. -/
theorem validate_data_inputs_stops_witness :
    ∃ m, validate_data_inputs
      (⟨none, some 1, some "k1", some "k2"⟩ : SessionState Nat) = .error m ∧
      ∀ (join_data : Unit → Except String Nat)
        (limitFn : Nat → Except String Nat),
        preview_merge_data none
          (⟨none, some 1, some "k1", some "k2"⟩ : SessionState Nat)
          join_data limitFn = .stopped m :=
  validate_data_inputs_stops _ (Or.inl rfl)

/-- Claim C10: in `preview_merge_data`, when the tried call raises —
`join_data` in the two-source case, the `limit` call in the single-source
case — the local `data` is never assigned, so after the error message is
displayed the check `if data is not None` reads an unbound local and raises
`NameError` instead of returning cleanly. -/
theorem preview_merge_data_unbound_local {δ : Type} (s : SessionState δ)
    (join_data : Unit → Except String δ) (limitFn : δ → Except String δ)
    (d : δ) (e1 e2 : String)
    (hv : validate_data_inputs s = .ok ())
    (hj : join_data () = .error e1)
    (hl : limitFn d = .error e2) :
    preview_merge_data none s join_data limitFn
      = .localUnbound ("Error: " ++ e1)
    ∧ preview_merge_data (some d) s join_data limitFn
      = .localUnbound ("Error: " ++ e2) := by
  constructor <;> simp [preview_merge_data, hv, hj, hl]

/-- Claim C10 witness: a fully populated session state with a failing join
and a failing limit call. -/
theorem preview_merge_data_unbound_local_witness :
    preview_merge_data none
      (⟨some 1, some 2, some "k1", some "k2"⟩ : SessionState Nat)
      (fun _ => Except.error "join blew up") (fun _ => Except.error "limit blew up")
      = .localUnbound "Error: join blew up"
    ∧ preview_merge_data (some 0)
      (⟨some 1, some 2, some "k1", some "k2"⟩ : SessionState Nat)
      (fun _ => Except.error "join blew up") (fun _ => Except.error "limit blew up")
      = .localUnbound "Error: limit blew up" :=
  preview_merge_data_unbound_local _ _ _ 0 "join blew up" "limit blew up"
    rfl rfl rfl

end Evalanche

